import Mathlib

/-!
Verification of the middleware / scene / wizard engine of the
`sdkwa-whatsapp-chatbot` Python library.

The Python sources are shallowly embedded as pure Lean functions:

* Python `dict` values become insertion-ordered association lists
  (`alGet` / `alSet` mirror `d[k]` and `d[k] = v`);
* Python `str` values are embedded as `List Char` (`PyStr`), with
  `words` mirroring `str.split()` (split on whitespace runs, dropping
  empty pieces);
* `async` methods collapse to ordinary functions: each update is
  processed start-to-finish, which is exactly the library's documented
  concurrency assumption;
* handlers registered by the bot author (enter/leave handlers, wizard
  step handlers, plain chain handlers) are embedded as opaque numeric
  tags; running a handler appends an event carrying its tag to an event
  trace, so "handler X ran (n times, in this order)" is observable;
* mutation of `ctx.session` / `ctx` attributes becomes functional update
  of a `Sess` / `Ctx` record.
-/

/-- Character-list embedding of Python `str`. -/
abbrev PyStr := List Char

/-- Python dictionary lookup `d.get(k)` on an insertion-ordered
association list (keys are unique in lists produced by `alSet`). -/
def alGet {α β : Type} [DecidableEq α] : List (α × β) → α → Option β
  | [], _ => none
  | p :: d, k => if p.1 = k then some p.2 else alGet d k

/-- Python dictionary update `d[k] = v`: replaces the value at an
existing key in place, otherwise appends the new pair (insertion
order semantics of CPython dicts). -/
def alSet {α β : Type} [DecidableEq α] : List (α × β) → α → β → List (α × β)
  | [], k, v => [(k, v)]
  | p :: d, k, v => if p.1 = k then (k, v) :: d else p :: alSet d k v

theorem alGet_alSet_self {α β : Type} [DecidableEq α] (d : List (α × β)) (k : α) (v : β) :
    alGet (alSet d k v) k = some v := by
  induction d with
  | nil => simp [alGet, alSet]
  | cons p d ih =>
    by_cases h : p.1 = k
    · simp [alGet, alSet, h]
    · simp [alGet, alSet, h, ih]

/-- Whitespace test used by Python `str.split()`. -/
def isWs (c : Char) : Bool := c.isWhitespace

theorem length_dropWhile_le (p : Char → Bool) (l : List Char) :
    (l.dropWhile p).length ≤ l.length := by
  induction l with
  | nil => simp [List.dropWhile]
  | cons a l ih =>
    by_cases h : p a
    · simpa [List.dropWhile, h] using Nat.le_succ_of_le ih
    · simp [List.dropWhile, h]

/-- Python `str.split()` with no separator: splits on runs of
whitespace and never yields empty pieces. -/
def words (s : PyStr) : List PyStr :=
  match s with
  | [] => []
  | c :: cs =>
    if isWs c then words cs
    else (c :: cs.takeWhile (fun d => !isWs d)) :: words (cs.dropWhile (fun d => !isWs d))
termination_by s.length
decreasing_by
  · simp
  · simp only [List.length_cons]
    exact Nat.lt_succ_of_le (length_dropWhile_le _ _)

/-- Python `str.startswith("/")`. -/
def startsWithSlash (t : PyStr) : Bool :=
  match t with
  | '/' :: _ => true
  | _ => false

/-- Python `str.lower()`, character by character. -/
def pyLower (t : PyStr) : PyStr := t.map Char.toLower

/-- Values stored by wizard step handlers (`data` dictionaries). -/
abbrev Data := List (String × Nat)

/-- The `wizard` sub-record kept under the scene state
(`wizard.py`: keys `current_step`, `step_data`, `completed_steps`,
and the `completed` flag written by `complete_wizard`). -/
structure WizState where
  current_step : Nat
  step_data : List (Nat × Data)
  completed_steps : List Nat
  completed : Bool
deriving DecidableEq, Repr

/-- Reading a missing key of the empty wizard dict with the defaults the
source uses (`.get("current_step", 0)`, `.get("step_data", {})`,
`.get("completed_steps", [])`, `.get("completed", False)`). -/
def emptyWizState : WizState := ⟨0, [], [], false⟩

/-- The `state` sub-mapping of the reserved scene record.  The engine
itself only ever stores the `wizard` key in it, so it is embedded as a
record with that one optional field (absent key = `none`). -/
structure SceneState where
  wizard : Option WizState
deriving DecidableEq, Repr

/-- The reserved `"__scene"` session record
(`base.py`: keys `id`, `state`, `entered_at`). -/
structure SceneRec where
  id : String
  state : SceneState
  entered_at : Nat
deriving DecidableEq, Repr

/-- A per-conversation session mapping: the reserved `"__scene"` key is
split out as `scene`; every other key/value pair lives in `user`. -/
structure Sess where
  user : List (String × Nat)
  scene : Option SceneRec
deriving DecidableEq, Repr

/-- The empty session dictionary. -/
def emptySess : Sess := ⟨[], none⟩

/-- Observable events: each registered handler is an opaque numeric tag
and running it emits one event, so handler invocations (and their
order and multiplicity) are visible in the trace. -/
inductive Ev where
  | enterH (scene : String) (tag : Nat)
  | leaveH (scene : String) (tag : Nat)
  | stepH (scene : String) (idx : Nat) (tag : Nat)
  | sceneChain (tag : Nat)
  | outerH (tag : Nat)
deriving DecidableEq, Repr

/-- Embeds `BaseScene.get_state` (`base.py` lines 113-121), read against the
session only: returns the `state` sub-mapping of the reserved scene
record when its recorded id matches, otherwise the empty dict. -/
def wget_state (id : String) (s : Sess) : SceneState :=
  match s.scene with
  | some rec => if rec.id = id then rec.state else ⟨none⟩
  | none => ⟨none⟩

/-- Embeds `BaseScene.set_state` (`base.py` lines 123-138): re-creates the
reserved scene record (with `entered_at = now`) when it is missing or
records a different scene id, then stores the new `state` mapping. -/
def wset_state (id : String) (now : Nat) (st : SceneState) (s : Sess) : Sess :=
  match s.scene with
  | some rec =>
    if rec.id = id then { s with scene := some { rec with state := st } }
    else { s with scene := some ⟨id, st, now⟩ }
  | none => { s with scene := some ⟨id, st, now⟩ }

/-- A `WizardScene` definition (`wizard.py`): scene id, lifecycle
handlers and optional TTL inherited from `BaseScene`, plus the ordered
list of step handlers.  Handlers are opaque tags (they emit events). -/
structure Wizard where
  scene_id : String
  enter_handlers : List Nat
  leave_handlers : List Nat
  ttl : Option Nat
  steps : List Nat
deriving DecidableEq, Repr

/-- Embeds `WizardScene.get_wizard_state` (`wizard.py` lines 179-182):
`get_state(ctx).get("wizard", {})`; the absent key is `none`. -/
def Wizard.get_wizard_state (w : Wizard) (s : Sess) : Option WizState :=
  (wget_state w.scene_id s).wizard

/-- Embeds `WizardScene.execute_current_step` (`wizard.py` lines 80-94): runs
the handler at the current index when it is in range.  Step handlers
are reply-only taps, so the session is unchanged and the invocation is
recorded as a `stepH` event.  (When the wizard record is absent the
source raises `KeyError` on `wizard_state["current_step"]`; that path
is unreachable after `enter_scene` and is embedded as a no-op.) -/
def Wizard.execute_current_step (w : Wizard) (s : Sess) : Sess × List Ev :=
  match Wizard.get_wizard_state w s with
  | none => (s, [])
  | some ws =>
    match w.steps[ws.current_step]? with
    | some tag => (s, [Ev.stepH w.scene_id ws.current_step tag])
    | none => (s, [])

/-- Embeds `BaseScene.leave_scene` as inherited by the wizard (`base.py` lines
75-88): runs every leave handler in order, then deletes the reserved
`"__scene"` key. -/
def Wizard.leave_scene (w : Wizard) (s : Sess) : Sess × List Ev :=
  ({ s with scene := none }, w.leave_handlers.map (Ev.leaveH w.scene_id))

/-- Embeds `WizardScene.enter_scene` (`wizard.py` lines 41-53): the inherited
`BaseScene.enter_scene` stores a fresh reserved record and runs the
enter handlers; then the wizard state is initialized to
`current_step = 0`, empty `step_data` and `completed_steps`, and step 0
executes immediately. -/
def Wizard.enter_scene (w : Wizard) (now : Nat) (s : Sess) : Sess × List Ev :=
  let s1 : Sess := { s with scene := some ⟨w.scene_id, ⟨none⟩, now⟩ }
  let evs1 := w.enter_handlers.map (Ev.enterH w.scene_id)
  let ws : WizState := ⟨0, [], [], false⟩
  let st := wget_state w.scene_id s1
  let s2 := wset_state w.scene_id now { st with wizard := some ws } s1
  let r := Wizard.execute_current_step w s2
  (r.1, evs1 ++ r.2)

/-- Truthiness of the skip test in `_handle_wizard_message`
(`wizard.py` line 58): the message text exists, is non-empty and starts
with the command prefix `/`. -/
def skip_command (text : Option PyStr) : Bool :=
  match text with
  | some t => decide (t ≠ []) && startsWithSlash t
  | none => false

/-- Embeds `WizardScene._handle_wizard_message` (`wizard.py` lines 55-78):
commands are skipped; otherwise the step index is advanced by one and,
when the new index is in range, the state is stored and the new step
executes.  Out-of-range advances do nothing. -/
def Wizard.handle_wizard_message (w : Wizard) (now : Nat) (text : Option PyStr) (s : Sess) :
    Sess × List Ev :=
  if skip_command text then (s, [])
  else
    let ws := Wizard.get_wizard_state w s
    let cur := (ws.map (fun x => x.current_step)).getD 0
    if cur + 1 < w.steps.length then
      let ws1 : WizState := { ws.getD emptyWizState with current_step := cur + 1 }
      let st := wget_state w.scene_id s
      let s1 := wset_state w.scene_id now { st with wizard := some ws1 } s
      Wizard.execute_current_step w s1
    else (s, [])

/-- Embeds `WizardScene.complete_wizard` (`wizard.py` lines 164-177): sets the
`completed` flag in the wizard state, stores it, then performs the full
`leave_scene`. -/
def Wizard.complete_wizard (w : Wizard) (now : Nat) (s : Sess) : Sess × List Ev :=
  let ws := (Wizard.get_wizard_state w s).getD emptyWizState
  let ws1 : WizState := { ws with completed := true }
  let st := wget_state w.scene_id s
  let s1 := wset_state w.scene_id now { st with wizard := some ws1 } s
  Wizard.leave_scene w s1

/-- Truthiness of the `if data:` test in `next_step` (`wizard.py` line
104): `None` and the empty dict are falsy. -/
def truthyData : Option Data → Bool
  | some d => decide (d ≠ [])
  | none => false

/-- The wizard-state update performed by `next_step` (`wizard.py`
lines 100-112): `data` is recorded under the current index when truthy
(`if data:`), the current index is appended to `completed_steps` when
absent, and `current_step` is incremented. -/
def nextWs (ws : WizState) (data : Option Data) : WizState :=
  let wsA := if truthyData data then
      { ws with step_data := alSet ws.step_data ws.current_step (data.getD []) } else ws
  let wsB := if ws.current_step ∈ wsA.completed_steps then wsA
      else { wsA with completed_steps := wsA.completed_steps ++ [ws.current_step] }
  { wsB with current_step := ws.current_step + 1 }

/-- Embeds `WizardScene.next_step` (`wizard.py` lines 96-126): applies
`nextWs`, stores the state, then either executes the new step
(returning `true`) or calls `complete_wizard` (returning `false`). -/
def Wizard.next_step (w : Wizard) (now : Nat) (data : Option Data) (s : Sess) :
    Bool × Sess × List Ev :=
  let ws := (Wizard.get_wizard_state w s).getD emptyWizState
  let wsC := nextWs ws data
  let st := wget_state w.scene_id s
  let s1 := wset_state w.scene_id now { st with wizard := some wsC } s
  if wsC.current_step < w.steps.length then
    let r := Wizard.execute_current_step w s1
    (true, r.1, r.2)
  else
    let r := Wizard.complete_wizard w now s1
    (false, r.1, r.2)

/-- Embeds `WizardScene.get_current_step_index` (`wizard.py` lines 196-199). -/
def Wizard.get_current_step_index (w : Wizard) (s : Sess) : Nat :=
  ((Wizard.get_wizard_state w s).map (fun x => x.current_step)).getD 0

/-- Embeds `WizardScene.is_completed` (`wizard.py` lines 201-204). -/
def Wizard.is_completed (w : Wizard) (s : Sess) : Bool :=
  ((Wizard.get_wizard_state w s).map (fun x => x.completed)).getD false

/-- Embeds `WizardScene.get_step_data` with no index (`wizard.py` lines
184-194); also `WizardContext.get_all_data`. -/
def Wizard.get_step_data_all (w : Wizard) (s : Sess) : List (Nat × Data) :=
  ((Wizard.get_wizard_state w s).map (fun x => x.step_data)).getD []

/-- Embeds `WizardScene.get_step_data` at a given index (`wizard.py` lines
184-194): `step_data.get(step_index, {})`. -/
def Wizard.get_step_data_at (w : Wizard) (s : Sess) (i : Nat) : Data :=
  (alGet (Wizard.get_step_data_all w s) i).getD []

/-- Embeds `BaseScene.is_active` as inherited by the wizard (`base.py` lines
95-111), read against the session: the reserved record exists, records
this scene id, and the TTL (when set) has not elapsed. -/
def Wizard.is_active (w : Wizard) (now : Nat) (s : Sess) : Bool :=
  match s.scene with
  | none => false
  | some rec =>
    if rec.id ≠ w.scene_id then false
    else
      match w.ttl with
      | none => true
      | some t => !decide (now - rec.entered_at > t)

/-- A `BaseScene` definition (`base.py`): id, lifecycle handler lists,
optional TTL, and the scene's composed middleware chain
(`Composer.handler`), embedded as an optional opaque tag (running it
emits a `sceneChain` event). -/
structure Scene where
  scene_id : String
  enter_handlers : List Nat
  leave_handlers : List Nat
  ttl : Option Nat
  handler : Option Nat
deriving DecidableEq, Repr

/-- A `Stage` (`stage.py`): the registry of scenes.  The constructor
builds `{scene.scene_id: scene}` from the list, so on duplicate ids the
last registration wins. -/
structure Stage where
  scenes : List Scene
deriving DecidableEq, Repr

/-- The per-update `Context` attributes the scene engine touches:
`session` (attached by the session middleware), `scene` (attached by
`enter_scene` / the Stage middleware), `scene_manager` (attached by the
Stage middleware) and the `_scene_handled` marker. -/
structure Ctx where
  session : Sess
  scene : Option Scene
  scene_manager : Option Stage
  scene_handled : Bool
deriving DecidableEq, Repr

/-- Embeds `Stage.get_scene` (`stage.py` lines 30-32): dictionary lookup; the
reversal reflects that later duplicate registrations overwrite earlier
ones in the `scenes` dict. -/
def Stage.get_scene (st : Stage) (id : String) : Option Scene :=
  st.scenes.reverse.find? (fun sc => sc.scene_id == id)

/-- Embeds `BaseScene.enter_scene` (`base.py` lines 54-73): sets `ctx.scene`,
stores a fresh reserved `"__scene"` record with empty state and
`entered_at = now`, then runs the enter handlers in order. -/
def Scene.enter_scene (sc : Scene) (now : Nat) (ctx : Ctx) : Ctx × List Ev :=
  ({ ctx with
      scene := some sc,
      session := { ctx.session with scene := some ⟨sc.scene_id, ⟨none⟩, now⟩ } },
   sc.enter_handlers.map (Ev.enterH sc.scene_id))

/-- Embeds `BaseScene.leave_scene` (`base.py` lines 75-88): runs the leave
handlers in order, deletes the reserved `"__scene"` key, clears
`ctx.scene`. -/
def Scene.leave_scene (sc : Scene) (ctx : Ctx) : Ctx × List Ev :=
  ({ ctx with session := { ctx.session with scene := none }, scene := none },
   sc.leave_handlers.map (Ev.leaveH sc.scene_id))

/-- Embeds `Stage.enter` (`stage.py` lines 34-46): returns `false` when the
scene id is unregistered; otherwise leaves the scene currently attached
to `ctx.scene` (if any) and enters the target scene. -/
def Stage.enter (st : Stage) (id : String) (now : Nat) (ctx : Ctx) :
    Bool × Ctx × List Ev :=
  match st.get_scene id with
  | none => (false, ctx, [])
  | some sc =>
    let r1 :=
      match ctx.scene with
      | some cur => Scene.leave_scene cur ctx
      | none => (ctx, [])
    let r2 := Scene.enter_scene sc now r1.1
    (true, r2.1, r1.2 ++ r2.2)

/-- Embeds `BaseScene.is_active` (`base.py` lines 95-111): the reserved record
exists and names this scene, and the TTL (when set) has not elapsed
(`current_time - entered_at > ttl` means expired). -/
def Scene.is_active (sc : Scene) (now : Nat) (ctx : Ctx) : Bool :=
  match ctx.session.scene with
  | none => false
  | some rec =>
    if rec.id ≠ sc.scene_id then false
    else
      match sc.ttl with
      | none => true
      | some t => !decide (now - rec.entered_at > t)

/-- Embeds `Stage.get_current_scene` (`stage.py` lines 62-73): reads the
reserved key, looks the recorded id up in the registry and checks
`is_active`.  The context is returned alongside the result to make the
read-only character of the method a provable statement. -/
def Stage.get_current_scene (st : Stage) (now : Nat) (ctx : Ctx) :
    Option Scene × Ctx :=
  match ctx.session.scene with
  | none => (none, ctx)
  | some rec =>
    match st.get_scene rec.id with
    | none => (none, ctx)
    | some sc => (if sc.is_active now ctx then some sc else none, ctx)

/-- One unit of the bot's outer chain: either a plain registered
handler (opaque tag) or the Stage middleware produced by
`Stage.middleware()`. -/
inductive ChainUnit where
  | plain (tag : Nat)
  | stageUnit (st : Stage)
deriving DecidableEq, Repr

/-- Running one chain unit.  The Stage middleware (`stage.py` lines
75-109) attaches the stage as `ctx.scene_manager`, resolves the current
scene and, when one is active and has a composed handler, attaches it
as `ctx.scene`, marks `_scene_handled` and runs the scene's chain; it
returns without invoking any continuation (inside the composed chain
`next_handler` is `None`). -/
def runUnit (now : Nat) (ctx : Ctx) : ChainUnit → Ctx × List Ev
  | ChainUnit.plain tag => (ctx, [Ev.outerH tag])
  | ChainUnit.stageUnit st =>
    let ctx1 : Ctx := { ctx with scene_manager := some st }
    let got := Stage.get_current_scene st now ctx1
    match got.1 with
    | some sc =>
      let ctx2 : Ctx := { got.2 with scene := some sc }
      match sc.handler with
      | some h => ({ ctx2 with scene_handled := true }, [Ev.sceneChain h])
      | none => (ctx2, [])
    | none => (got.2, [])

/-- Embeds `Composer.compose` (`composer.py` lines 119-136): the composed
handler invokes every unit in registration order, ignoring return
values and passing no continuation. -/
def runChain (now : Nat) : List ChainUnit → Ctx → Ctx × List Ev
  | [], ctx => (ctx, [])
  | u :: us, ctx =>
    let r1 := runUnit now ctx u
    let r2 := runChain now us r1.1
    (r2.1, r1.2 ++ r2.2)

/-- The pluggable session store (`MemorySessionStore._sessions`): a
mapping from session key to session mapping. -/
abbrev Store := List (String × Sess)

/-- Embeds `MemorySessionStore.get` (`session.py` lines 36-38):
`self._sessions.get(session_key, {})`; the `or {}` applied by the
middleware yields the same empty mapping. -/
def storeGet (st : Store) (k : String) : Sess := (alGet st k).getD emptySess

/-- Embeds `MemorySessionStore.set` (`session.py` lines 40-42). -/
def storeSet (st : Store) (k : String) (v : Sess) : Store := alSet st k v

/-- A chain handler as the session layer sees it: it transforms the
in-memory session (possibly only partially) and reports whether it
raised.  Mutations made before the raise persist, as they do on a
Python `ctx.session` mutated in place. -/
abbrev UHandler := Sess → Sess × Bool

/-- The composed chain running the registered units in order
(`Composer.compose`): an exception from one unit aborts the remaining
units and propagates to `handle_update`. -/
def runHandlers : List UHandler → Sess → Sess × Bool
  | [], s => (s, false)
  | h :: hs, s =>
    let r := h s
    if r.2 then (r.1, true) else runHandlers hs r.1

/-- The default session key (`session.py` lines 114-116):
`ctx.chat_id or "default"`. -/
def session_key (chat_id : String) : String :=
  if chat_id = "" then "default" else chat_id

/-- Embeds `WhatsAppBot.handle_update` (`whatsapp_bot.py` lines 86-119) with
the session middleware of `session.py` (lines 120-143) installed as the
first chain unit, sharing the bot's `session_manager` store (the
configuration used throughout the repository:
`bot.use(session(store=bot.session_manager.store))`).

Steps, in source order: the middleware loads the mapping for the
session key and attaches it as `ctx.session`; its `finally` block
writes that (still unmodified) mapping back; the remaining chain units
then run and mutate `ctx.session` until one of them raises or all
complete; finally `handle_update` saves `ctx.session` under `chat_id`
on the success path and again on the exception path, so the write-back
happens even when a handler raises.

Returns the final store, the session attached at the start, the final
in-memory session, and whether a handler raised. -/
def handle_update (hs : List UHandler) (store : Store) (chat_id : String) :
    Store × Sess × Sess × Bool :=
  let key := session_key chat_id
  let loaded := storeGet store key
  let store1 := storeSet store key loaded
  let r := runHandlers hs loaded
  let store2 := if chat_id ≠ "" then storeSet store1 chat_id r.1 else store1
  (store2, loaded, r.1, r.2)

/-- The message view the composition predicates consult: a parsed
`Message` (`context.py` dataclass) always defines a `text` attribute,
which holds `None` when the update carried no text. -/
structure Msg where
  text : Option PyStr
deriving DecidableEq, Repr

/-- The `Context` fields consulted by `Composer.mount` and the command
helpers: the update classification tag and the optional message. -/
structure CCtx where
  update_type : String
  message : Option Msg
deriving DecidableEq, Repr

/-- Whether the handler guarded by `Composer.mount(update_types, ...)`
(`composer.py` lines 138-170) runs on a given context: the update type
is listed, or `"message"` is listed and a message is present, or
`"text"` is listed and a message is present — `hasattr(ctx.message,
"text")` is always true of the parsed `Message` dataclass, so no
constraint on the text itself remains. -/
def mountFires (update_types : List String) (ctx : CCtx) : Bool :=
  if ctx.update_type ∈ update_types then true
  else if "message" ∈ update_types ∧ ctx.message.isSome then true
  else if "text" ∈ update_types ∧ ctx.message.isSome then true
  else false

/-- Whether the handler guarded by
`Composer.command_middleware(commands, ...)` (`composer.py` lines
210-238) runs: the text exists, is non-empty and starts with `/`, and
the first whitespace token of `text[1:]`, lowercased, equals one of the
registered names lowercased.  `none` embeds the `IndexError` the source
raises on `text[1:].split()[0]` when the text is `/` followed only by
whitespace. -/
def commandFires (commands : List PyStr) (text : Option PyStr) : Option Bool :=
  match text with
  | none => some false
  | some t =>
    if t = [] then some false
    else if startsWithSlash t then
      match words (t.drop 1) with
      | [] => none
      | tok :: _ => some (decide (pyLower tok ∈ commands.map pyLower))
    else some false

/-- Embeds `Context.get_command` (`context.py` lines 384-394): the first
whitespace token of `text[1:]`, lowercased; `none` when there is no
command text (subsuming the `IndexError` path, unreachable for the
well-formed texts considered here). -/
def get_command (text : Option PyStr) : Option PyStr :=
  match text with
  | none => none
  | some t =>
    if t = [] then none
    else if startsWithSlash t then
      match words (t.drop 1) with
      | [] => none
      | tok :: _ => some (pyLower tok)
    else none

/-- Embeds `Context.get_command_args` (`context.py` lines 372-382):
`text.split()[1:]` on command texts, `[]` otherwise. -/
def get_command_args (text : Option PyStr) : List PyStr :=
  match text with
  | none => []
  | some t =>
    if t = [] then []
    else if startsWithSlash t then (words t).drop 1
    else []

theorem get_scene_id (st : Stage) (id : String) (sc : Scene)
    (h : st.get_scene id = some sc) : sc.scene_id = id := by
  have h2 := List.find?_some h
  simpa using h2

/-- A registered scene with a composed handler chain (tag 7) and one
enter (tag 1) and one leave (tag 2) handler. -/
def sceneCex : Scene := ⟨"greet", [1], [2], none, some 7⟩

/-- A stage holding only `sceneCex`. -/
def stageCex : Stage := ⟨[sceneCex]⟩

/-- A context whose session records `sceneCex` as the active scene. -/
def ctxCex : Ctx := ⟨⟨[], some ⟨"greet", ⟨none⟩, 0⟩⟩, none, none, false⟩

/-- C1 (counterexample):  The claim says no handler registered
after the Stage middleware in the bot's outer chain runs while a scene
is active.  On the concrete chain `[stage.middleware(), handler 9]`
with `sceneCex` active, the trace shows the scene's chain (tag 7)
running and then the outer handler (tag 9) running: `Composer.compose`
invokes every unit in order and ignores the middleware's return value,
so the outer chain is not short-circuited. -/
theorem c1_counterexample :
    (runChain 0 [ChainUnit.stageUnit stageCex, ChainUnit.plain 9] ctxCex).2
      = [Ev.sceneChain 7, Ev.outerH 9] := by decide

theorem get_current_scene_ctx (st : Stage) (now : Nat) (ctx : Ctx) :
    (Stage.get_current_scene st now ctx).2 = ctx := by
  unfold Stage.get_current_scene
  repeat' split
  all_goals rfl

theorem runUnit_stage_eq (st : Stage) (now : Nat) (ctx : Ctx) :
    runUnit now ctx (ChainUnit.stageUnit st) =
      match (Stage.get_current_scene st now { ctx with scene_manager := some st }).1 with
      | some sc =>
        match sc.handler with
        | some h =>
          ({ ctx with scene_manager := some st, scene := some sc, scene_handled := true },
           [Ev.sceneChain h])
        | none => ({ ctx with scene_manager := some st, scene := some sc }, [])
      | none => ({ ctx with scene_manager := some st }, []) := by
  simp only [runUnit, get_current_scene_ctx]

theorem get_current_scene_active (st : Stage) (now : Nat) (ctx : Ctx)
    (rec : SceneRec) (sc : Scene)
    (hrec : ctx.session.scene = some rec) (hg : st.get_scene rec.id = some sc)
    (ha : sc.is_active now ctx = true) :
    (Stage.get_current_scene st now ctx).1 = some sc := by
  simp [Stage.get_current_scene, hrec, hg, ha]

/-- C1 (amended):  On every update the Stage middleware attaches
the stage as `scene_manager` on the Context.  When a scene is active
(recorded in the session, registered, `is_active`) and has a composed
handler, the middleware attaches it as `ctx.scene`, marks the context
scene-handled, and runs exactly the scene's composed chain, itself
invoking no continuation — but the remaining units of the bot's outer
chain are still invoked afterwards, because `Composer.compose` runs
every unit in order regardless of return values, so the outer chain is
not short-circuited.  When no scene is active, control likewise passes
to the remaining units. -/
theorem c1_stage_middleware (st : Stage) (now : Nat) (ctx : Ctx) (rest : List ChainUnit) :
    ((runUnit now ctx (ChainUnit.stageUnit st)).1.scene_manager = some st) ∧
    (∀ rec sc h, ctx.session.scene = some rec → st.get_scene rec.id = some sc →
      sc.is_active now { ctx with scene_manager := some st } = true → sc.handler = some h →
      runChain now (ChainUnit.stageUnit st :: rest) ctx =
        ((runChain now rest
            { ctx with scene_manager := some st, scene := some sc, scene_handled := true }).1,
         Ev.sceneChain h ::
           (runChain now rest
             { ctx with scene_manager := some st, scene := some sc, scene_handled := true }).2)) ∧
    ((Stage.get_current_scene st now { ctx with scene_manager := some st }).1 = none →
      runChain now (ChainUnit.stageUnit st :: rest) ctx =
        runChain now rest { ctx with scene_manager := some st }) := by
  refine ⟨?_, ?_, ?_⟩
  · rw [runUnit_stage_eq]
    split
    · split <;> rfl
    · rfl
  · intro rec sc h hrec hg ha hh
    have hgc : (Stage.get_current_scene st now { ctx with scene_manager := some st }).1
        = some sc :=
      get_current_scene_active st now _ rec sc hrec hg ha
    simp [runChain, runUnit_stage_eq, hgc, hh]
  · intro hnone
    simp [runChain, runUnit_stage_eq, hnone]

/-- The context as the Stage middleware leaves it on `ctxCex`: stage
attached, scene attached, marked scene-handled. -/
def ctxCexAfter : Ctx :=
  { ctxCex with scene_manager := some stageCex, scene := some sceneCex, scene_handled := true }

/-- Witness for C1: instantiating the amended Stage-middleware theorem
on the concrete one-scene stage with an active scene shows the scene
chain running followed by the outer handler. -/
theorem c1_stage_middleware_witness :
    runChain 0 [ChainUnit.stageUnit stageCex, ChainUnit.plain 9] ctxCex =
      ((runChain 0 [ChainUnit.plain 9] ctxCexAfter).1,
       Ev.sceneChain 7 :: (runChain 0 [ChainUnit.plain 9] ctxCexAfter).2) :=
  (c1_stage_middleware stageCex 0 ctxCex [ChainUnit.plain 9]).2.1
    ⟨"greet", ⟨none⟩, 0⟩ sceneCex 7 (by decide) (by decide) (by decide) (by decide)

/-- C4:  At most one scene is active per conversation: entering
scene `A` and then scene `B` on the same context without an explicit
intervening leave (both enters succeeding) runs `A`'s leave handlers
exactly once — `Stage.enter` always leaves the currently attached scene
before entering — and afterwards the reserved session key records `B`'s
id, with `get_current_scene` resolving to `B`.  The full event trace is
also pinned down: `A`'s enter handlers, then `A`'s leave handlers, then
`B`'s enter handlers. -/
theorem c4_at_most_one_active_scene (st : Stage) (aId bId : String) (A B : Scene)
    (now1 now2 : Nat) (ctx0 : Ctx)
    (hA : st.get_scene aId = some A) (hB : st.get_scene bId = some B)
    (h0 : ctx0.scene = none) :
    (Stage.enter st aId now1 ctx0).1 = true ∧
    (Stage.enter st bId now2 (Stage.enter st aId now1 ctx0).2.1).1 = true ∧
    ((Stage.enter st aId now1 ctx0).2.2 ++
        (Stage.enter st bId now2 (Stage.enter st aId now1 ctx0).2.1).2.2
      = A.enter_handlers.map (Ev.enterH A.scene_id) ++
        (A.leave_handlers.map (Ev.leaveH A.scene_id) ++
          B.enter_handlers.map (Ev.enterH B.scene_id))) ∧
    (∀ tag,
      ((Stage.enter st aId now1 ctx0).2.2 ++
          (Stage.enter st bId now2 (Stage.enter st aId now1 ctx0).2.1).2.2).count
            (Ev.leaveH A.scene_id tag)
        = A.leave_handlers.count tag) ∧
    ((Stage.enter st bId now2 (Stage.enter st aId now1 ctx0).2.1).2.1.session.scene.map
        SceneRec.id = some B.scene_id) ∧
    ((Stage.get_current_scene st now2
        (Stage.enter st bId now2 (Stage.enter st aId now1 ctx0).2.1).2.1).1 = some B) := by
  have e1 : Stage.enter st aId now1 ctx0 =
      (true,
       ⟨⟨ctx0.session.user, some ⟨A.scene_id, ⟨none⟩, now1⟩⟩, some A,
         ctx0.scene_manager, ctx0.scene_handled⟩,
       A.enter_handlers.map (Ev.enterH A.scene_id)) := by
    simp [Stage.enter, hA, h0, Scene.enter_scene]
  have e2 : Stage.enter st bId now2 (Stage.enter st aId now1 ctx0).2.1 =
      (true,
       ⟨⟨ctx0.session.user, some ⟨B.scene_id, ⟨none⟩, now2⟩⟩, some B,
         ctx0.scene_manager, ctx0.scene_handled⟩,
       A.leave_handlers.map (Ev.leaveH A.scene_id) ++
         B.enter_handlers.map (Ev.enterH B.scene_id)) := by
    rw [e1]
    simp [Stage.enter, hB, Scene.leave_scene, Scene.enter_scene]
  refine ⟨by rw [e1], by rw [e2], ?_, ?_, by rw [e2]; rfl, ?_⟩
  · rw [e2, e1]
  · intro tag
    rw [e2, e1]
    dsimp only
    rw [List.count_append, List.count_append]
    have h1 : (A.enter_handlers.map (Ev.enterH A.scene_id)).count (Ev.leaveH A.scene_id tag)
        = 0 := by
      rw [List.count_eq_zero]
      simp
    have h2 : (B.enter_handlers.map (Ev.enterH B.scene_id)).count (Ev.leaveH A.scene_id tag)
        = 0 := by
      rw [List.count_eq_zero]
      simp
    have hf : Function.Injective (Ev.leaveH A.scene_id) := by
      intro a b hab
      injection hab
    have h3 : (A.leave_handlers.map (Ev.leaveH A.scene_id)).count (Ev.leaveH A.scene_id tag)
        = A.leave_handlers.count tag :=
      List.count_map_of_injective _ _ hf tag
    omega
  · rw [e2]
    have hBid : B.scene_id = bId := get_scene_id st bId B hB
    have : st.get_scene B.scene_id = some B := by rw [hBid]; exact hB
    simp [Stage.get_current_scene, this, Scene.is_active]
    cases B.ttl <;> simp [Nat.sub_self]

/-- Scene `"a"` with enter handler 11 and leave handler 12. -/
def sceneA : Scene := ⟨"a", [11], [12], none, none⟩

/-- Scene `"b"` with enter handler 21 and leave handler 22. -/
def sceneB : Scene := ⟨"b", [21], [22], none, none⟩

/-- A stage registering `sceneA` and `sceneB`. -/
def stageAB : Stage := ⟨[sceneA, sceneB]⟩

/-- A fresh context with an empty session and no scene attached. -/
def ctx4 : Ctx := ⟨⟨[], none⟩, none, none, false⟩

/-- Witness for C4: entering `"a"` then `"b"` runs `a`'s single leave
handler exactly once and leaves `"b"` as the active scene. -/
theorem c4_witness :
    (Stage.enter stageAB "a" 1 ctx4).1 = true ∧
    ((Stage.enter stageAB "a" 1 ctx4).2.2 ++
        (Stage.enter stageAB "b" 2 (Stage.enter stageAB "a" 1 ctx4).2.1).2.2).count
          (Ev.leaveH "a" 12) = 1 ∧
    (Stage.get_current_scene stageAB 2
        (Stage.enter stageAB "b" 2 (Stage.enter stageAB "a" 1 ctx4).2.1).2.1).1
      = some sceneB := by
  have h := c4_at_most_one_active_scene stageAB "a" "b" sceneA sceneB 1 2 ctx4
      (by decide) (by decide) rfl
  exact ⟨h.1, (h.2.2.2.1 12).trans (by decide), h.2.2.2.2.2⟩

/-- C7:  `get_current_scene` returns the recorded scene exactly
when that scene id is registered and the scene is not TTL-expired
(no TTL, or elapsed time since `entered_at` at most the TTL), and it
never mutates the context (in particular the session mapping): expiry
is evaluated lazily at read time, the stale record stays in place. -/
theorem c7_get_current_scene_ttl (st : Stage) (now : Nat) (ctx : Ctx) (rec : SceneRec)
    (h : ctx.session.scene = some rec) :
    ((Stage.get_current_scene st now ctx).2 = ctx) ∧
    (∀ sc : Scene, (Stage.get_current_scene st now ctx).1 = some sc ↔
      (st.get_scene rec.id = some sc ∧ Scene.is_active sc now ctx = true)) ∧
    (∀ sc : Scene, rec.id = sc.scene_id →
      (Scene.is_active sc now ctx = true ↔
        (sc.ttl = none ∨ ∃ t, sc.ttl = some t ∧ now - rec.entered_at ≤ t))) := by
  refine ⟨get_current_scene_ctx st now ctx, ?_, ?_⟩
  · intro sc
    simp only [Stage.get_current_scene, h]
    cases hg : st.get_scene rec.id with
    | none => simp
    | some sc0 =>
      dsimp only
      by_cases ha : sc0.is_active now ctx = true
      · rw [if_pos ha]
        constructor
        · intro hx
          have hsc : sc0 = sc := by injection hx
          subst hsc
          exact ⟨rfl, ha⟩
        · intro hx
          exact hx.1
      · rw [if_neg ha]
        constructor
        · intro hx
          exact absurd hx (by simp)
        · rintro ⟨hx, hact⟩
          have hsc : sc0 = sc := by injection hx
          subst hsc
          exact absurd hact ha
  · intro sc hid
    simp only [Scene.is_active, h]
    rw [if_neg (by simp [hid])]
    cases ht : sc.ttl with
    | none => simp
    | some t => simp [Nat.not_lt]

/-- A scene with `ttl = 5` and no handlers. -/
def sceneTtl : Scene := ⟨"t", [], [], some 5, none⟩

/-- A stage registering only `sceneTtl`. -/
def stageTtl : Stage := ⟨[sceneTtl]⟩

/-- A context whose session still records `sceneTtl`, entered at time 0. -/
def ctxTtl : Ctx := ⟨⟨[("k", 1)], some ⟨"t", ⟨none⟩, 0⟩⟩, none, none, false⟩

/-- Witness for C7: the scene entered at `t0 = 0` with `ttl = 5` is not
returned for an update at `t0 + 10`, yet the context (including the
reserved session key) is untouched. -/
theorem c7_witness :
    (Stage.get_current_scene stageTtl 10 ctxTtl).2 = ctxTtl ∧
    (Stage.get_current_scene stageTtl 10 ctxTtl).1 = none :=
  ⟨(c7_get_current_scene_ttl stageTtl 10 ctxTtl ⟨"t", ⟨none⟩, 0⟩ rfl).1, by decide⟩

/-- C3:  For a non-command message while a wizard is active (the
session records the wizard's id, with wizard state `ws`), the
per-message auto-advance increments the step index by exactly one
before invoking the handler for the new index (the invoked step is
`current_step + 1`); when the incremented index is out of range nothing
happens: no step handler fires, the wizard does not complete, and the
session — step data, completed steps, `entered_at`, everything — is
left unchanged. -/
theorem c3_auto_advance (w : Wizard) (now : Nat) (text : Option PyStr)
    (u : List (String × Nat)) (t0 : Nat) (ws : WizState)
    (hsk : skip_command text = false) :
    (∀ tag, w.steps[ws.current_step + 1]? = some tag →
      Wizard.handle_wizard_message w now text ⟨u, some ⟨w.scene_id, ⟨some ws⟩, t0⟩⟩ =
        (⟨u, some ⟨w.scene_id, ⟨some { ws with current_step := ws.current_step + 1 }⟩, t0⟩⟩,
         [Ev.stepH w.scene_id (ws.current_step + 1) tag])) ∧
    (w.steps[ws.current_step + 1]? = none →
      Wizard.handle_wizard_message w now text ⟨u, some ⟨w.scene_id, ⟨some ws⟩, t0⟩⟩ =
        (⟨u, some ⟨w.scene_id, ⟨some ws⟩, t0⟩⟩, [])) := by
  constructor
  · intro tag htag
    have hlt : ws.current_step + 1 < w.steps.length := by
      by_contra hge
      rw [List.getElem?_eq_none (by omega)] at htag
      exact Option.noConfusion htag
    simp [Wizard.handle_wizard_message, hsk, Wizard.get_wizard_state, wget_state,
      wset_state, Wizard.execute_current_step, hlt, htag]
  · intro hnone
    have hge : ¬ ws.current_step + 1 < w.steps.length := by
      intro hlt
      rw [List.getElem?_eq_getElem hlt] at hnone
      exact Option.noConfusion hnone
    simp [Wizard.handle_wizard_message, hsk, Wizard.get_wizard_state, wget_state, hge]

/-- A two-step wizard (step handlers 100 and 101). -/
def wiz3 : Wizard := ⟨"wiz", [], [], none, [100, 101]⟩

/-- Witness for C3: on a two-step wizard at step 0, a non-command
message advances to step 1 and runs step 1's handler; the witness
equality shows the already-incremented index at invocation time. -/
theorem c3_witness :
    Wizard.handle_wizard_message wiz3 0 (some ['h', 'i'])
        ⟨[], some ⟨"wiz", ⟨some ⟨0, [], [], false⟩⟩, 0⟩⟩ =
      (⟨[], some ⟨"wiz", ⟨some ⟨1, [], [], false⟩⟩, 0⟩⟩, [Ev.stepH "wiz" 1 101]) :=
  (c3_auto_advance wiz3 0 (some ['h', 'i']) [] 0 ⟨0, [], [], false⟩ (by decide)).1
    101 (by decide)

/-- The session of a conversation inside wizard `w` entered at time
`now`, at step `k`, with no recorded step data: the shape produced by
`enter_scene` followed by `k` auto-advances. -/
def wizSess (w : Wizard) (u : List (String × Nat)) (now k : Nat) : Sess :=
  ⟨u, some ⟨w.scene_id, ⟨some ⟨k, [], [], false⟩⟩, now⟩⟩

theorem enter_scene_sess (w : Wizard) (u : List (String × Nat)) (now : Nat) :
    (Wizard.enter_scene w now ⟨u, none⟩).1 = wizSess w u now 0 := by
  cases h : w.steps[(0 : Nat)]? <;>
    simp [Wizard.enter_scene, wget_state, wset_state, wizSess,
      Wizard.execute_current_step, Wizard.get_wizard_state, h]

theorem handle_msg_wizSess (w : Wizard) (u : List (String × Nat)) (now k : Nat)
    (text : Option PyStr) (hsk : skip_command text = false) :
    (Wizard.handle_wizard_message w now text (wizSess w u now k)).1 =
      if k + 1 < w.steps.length then wizSess w u now (k + 1) else wizSess w u now k := by
  by_cases h : k + 1 < w.steps.length
  · cases htag : w.steps[k + 1]? with
    | none =>
      rw [List.getElem?_eq_getElem h] at htag
      exact Option.noConfusion htag
    | some tag =>
      simp [Wizard.handle_wizard_message, hsk, Wizard.get_wizard_state, wget_state,
        wset_state, Wizard.execute_current_step, h, htag, wizSess]
  · simp [Wizard.handle_wizard_message, hsk, Wizard.get_wizard_state, wget_state, h, wizSess]

/-- Dispatching `k` successive identical messages into the wizard's
message handler (the scene chain installed by `WizardScene.__init__`
via `self.on("message", self._handle_wizard_message)`). -/
def driveMsgs (w : Wizard) (now : Nat) (text : Option PyStr) : Nat → Sess → Sess
  | 0, s => s
  | k + 1, s => driveMsgs w now text k (Wizard.handle_wizard_message w now text s).1

theorem driveMsgs_wizSess (w : Wizard) (u : List (String × Nat)) (now : Nat)
    (text : Option PyStr) (hsk : skip_command text = false) :
    ∀ k j, j ≤ w.steps.length - 1 →
      driveMsgs w now text k (wizSess w u now j) =
        wizSess w u now (min (j + k) (w.steps.length - 1)) := by
  intro k
  induction k with
  | zero =>
    intro j hj
    simp only [driveMsgs]
    rw [show min (j + 0) (w.steps.length - 1) = j from by omega]
  | succ k ih =>
    intro j hj
    simp only [driveMsgs]
    rw [handle_msg_wizSess w u now j text hsk]
    by_cases hlt : j + 1 < w.steps.length
    · rw [if_pos hlt, ih (j + 1) (by omega)]
      congr 1
      omega
    · rw [if_neg hlt, ih j hj]
      congr 1
      omega

/-- A one-step wizard with a leave handler, for the C2 counterexample. -/
def wizCex : Wizard := ⟨"cw", [], [5], none, [10]⟩

/-- C2 (counterexample):  For the one-step wizard `wizCex` (N = 1),
entry already executes step 0, and the claim says one further
non-command message triggers `complete_wizard`, leaving the scene
inactive.  In fact `_handle_wizard_message` computes `next = 1`, finds
it out of range and does nothing: no events (so no leave handler and no
completion), the session unchanged, the scene still active. -/
theorem c2_counterexample :
    (Wizard.handle_wizard_message wizCex 0 (some ['h', 'i'])
        (Wizard.enter_scene wizCex 0 ⟨[], none⟩).1) =
      ((Wizard.enter_scene wizCex 0 ⟨[], none⟩).1, []) ∧
    Wizard.is_active wizCex 0
        (Wizard.handle_wizard_message wizCex 0 (some ['h', 'i'])
          (Wizard.enter_scene wizCex 0 ⟨[], none⟩).1).1 = true ∧
    Wizard.is_completed wizCex
        (Wizard.handle_wizard_message wizCex 0 (some ['h', 'i'])
          (Wizard.enter_scene wizCex 0 ⟨[], none⟩).1).1 = false := by decide

/-- C2 (amended):  For a wizard with `N ≥ 1` steps entered on an
empty-session conversation (entry already executes step 0), each of the
`N - 1` subsequent non-command text messages advances `current_step` by
one, driving it through `1, ..., N-1`, the scene staying active
throughout; one further non-command message after that leaves the
session unchanged and does not trigger `complete_wizard`: the scene
remains active and uncompleted (completion happens only through the
explicit `wizard.next` / `complete_wizard` calls). -/
theorem c2_wizard_monotonic (w : Wizard) (now : Nat) (u : List (String × Nat))
    (text : Option PyStr) (hsk : skip_command text = false) (hN : 1 ≤ w.steps.length) :
    (∀ k, k ≤ w.steps.length - 1 →
      Wizard.get_current_step_index w
          (driveMsgs w now text k (Wizard.enter_scene w now ⟨u, none⟩).1) = k ∧
      Wizard.is_active w now
          (driveMsgs w now text k (Wizard.enter_scene w now ⟨u, none⟩).1) = true) ∧
    (driveMsgs w now text w.steps.length (Wizard.enter_scene w now ⟨u, none⟩).1 =
      driveMsgs w now text (w.steps.length - 1) (Wizard.enter_scene w now ⟨u, none⟩).1) ∧
    (Wizard.is_active w now
        (driveMsgs w now text w.steps.length (Wizard.enter_scene w now ⟨u, none⟩).1) = true) ∧
    (Wizard.is_completed w
        (driveMsgs w now text w.steps.length (Wizard.enter_scene w now ⟨u, none⟩).1)
      = false) := by
  have hs0 : (Wizard.enter_scene w now ⟨u, none⟩).1 = wizSess w u now 0 :=
    enter_scene_sess w u now
  have hdrive : ∀ k, driveMsgs w now text k (wizSess w u now 0) =
      wizSess w u now (min k (w.steps.length - 1)) := by
    intro k
    have h := driveMsgs_wizSess w u now text hsk k 0 (by omega)
    simpa using h
  have hact : ∀ k, Wizard.is_active w now (wizSess w u now k) = true := by
    intro k
    cases ht : w.ttl <;> simp [Wizard.is_active, wizSess, ht, Nat.sub_self]
  refine ⟨?_, ?_, ?_, ?_⟩
  · intro k hk
    rw [hs0, hdrive k, show min k (w.steps.length - 1) = k from by omega]
    exact ⟨by simp [Wizard.get_current_step_index, Wizard.get_wizard_state, wget_state,
      wizSess], hact k⟩
  · rw [hs0, hdrive, hdrive]
    congr 1
    omega
  · rw [hs0, hdrive]
    exact hact _
  · rw [hs0, hdrive]
    simp [Wizard.is_completed, Wizard.get_wizard_state, wget_state, wizSess]

/-- A three-step wizard for the C2 witness. -/
def wizC2 : Wizard := ⟨"w2", [], [], none, [20, 21, 22]⟩

/-- Witness for C2: on the three-step wizard, two messages drive
`current_step` to 2 and a third message is a no-op. -/
theorem c2_witness :
    Wizard.get_current_step_index wizC2
        (driveMsgs wizC2 0 (some ['x']) 2 (Wizard.enter_scene wizC2 0 ⟨[], none⟩).1) = 2 ∧
    driveMsgs wizC2 0 (some ['x']) 3 (Wizard.enter_scene wizC2 0 ⟨[], none⟩).1 =
      driveMsgs wizC2 0 (some ['x']) 2 (Wizard.enter_scene wizC2 0 ⟨[], none⟩).1 := by
  have h := c2_wizard_monotonic wizC2 0 [] (some ['x']) (by decide) (by decide)
  exact ⟨(h.1 2 (by decide)).1, h.2.1⟩

theorem nextWs_current_step (ws : WizState) (data : Option Data) :
    (nextWs ws data).current_step = ws.current_step + 1 := rfl

theorem nextWs_mem_completed (ws : WizState) (data : Option Data) :
    ws.current_step ∈ (nextWs ws data).completed_steps := by
  unfold nextWs
  by_cases hd : truthyData data = true <;>
    by_cases hc : ws.current_step ∈ ws.completed_steps <;>
      simp [hd, hc]

theorem nextWs_step_data_truthy (ws : WizState) (d : Data) (hd : d ≠ []) :
    alGet (nextWs ws (some d)).step_data ws.current_step = some d := by
  have ht : truthyData (some d) = true := by simp [truthyData, hd]
  by_cases hc : ws.current_step ∈ ws.completed_steps <;>
    simp [nextWs, ht, hc, alGet_alSet_self]

/-- C5 (amended):  For an active wizard at step `i`
(session records the wizard id with wizard state `ws`,
`i = ws.current_step`), `wizard.next(data)` records `data` under
`step_data[i]` only when `data` is provided and non-empty (the source
guards the write with Python truthiness, `if data:`, so `None` and the
empty dict are silently not recorded), adds `i` to the completed steps,
and sets `current_step` to `i + 1`; if `i + 1` is strictly less than
the number of steps it immediately executes step `i + 1`'s handler and
returns `true`, otherwise it calls `complete_wizard` — running the
leave handlers, deleting the scene record — and returns `false`. -/
theorem c5_next_step (w : Wizard) (now : Nat) (data : Option Data)
    (u : List (String × Nat)) (t0 : Nat) (ws : WizState) :
    (∀ tag, w.steps[ws.current_step + 1]? = some tag →
      Wizard.next_step w now data ⟨u, some ⟨w.scene_id, ⟨some ws⟩, t0⟩⟩ =
        (true, ⟨u, some ⟨w.scene_id, ⟨some (nextWs ws data)⟩, t0⟩⟩,
         [Ev.stepH w.scene_id (ws.current_step + 1) tag])) ∧
    (w.steps[ws.current_step + 1]? = none →
      Wizard.next_step w now data ⟨u, some ⟨w.scene_id, ⟨some ws⟩, t0⟩⟩ =
        (false, ⟨u, none⟩, w.leave_handlers.map (Ev.leaveH w.scene_id))) ∧
    (ws.current_step ∈ (nextWs ws data).completed_steps) ∧
    ((nextWs ws data).current_step = ws.current_step + 1) ∧
    (∀ d, data = some d → d ≠ [] →
      alGet (nextWs ws data).step_data ws.current_step = some d) := by
  refine ⟨?_, ?_, nextWs_mem_completed ws data, nextWs_current_step ws data, ?_⟩
  · intro tag htag
    have hlt : ws.current_step + 1 < w.steps.length := by
      by_contra hge
      rw [List.getElem?_eq_none (by omega)] at htag
      exact Option.noConfusion htag
    simp [Wizard.next_step, Wizard.get_wizard_state, wget_state, wset_state,
      Wizard.execute_current_step, nextWs_current_step, hlt, htag]
  · intro hnone
    have hge : ¬ ws.current_step + 1 < w.steps.length := by
      intro hlt
      rw [List.getElem?_eq_getElem hlt] at hnone
      exact Option.noConfusion hnone
    simp [Wizard.next_step, Wizard.get_wizard_state, wget_state, wset_state,
      Wizard.complete_wizard, Wizard.leave_scene, nextWs_current_step, hge]
  · intro d hd hne
    subst hd
    exact nextWs_step_data_truthy ws d hne

/-- A two-step wizard with one leave handler, for C5. -/
def wizC5 : Wizard := ⟨"w5", [], [3], none, [30, 31]⟩

/-- C5 (counterexample):  The claim says `wizard.next(data)`
records `data` under `step_data[i]`.  Calling it with the empty dict
(`data = {}`, Python-falsy) at step 0 records nothing: the guard
`if data:` skips the write, so `step_data` stays empty and lookup at
key 0 yields nothing, contradicting the unconditional "records data"
reading (the rest of the transition — completed steps, increment,
executing step 1 — still happens). -/
theorem c5_counterexample :
    Wizard.get_step_data_all wizC5
        (Wizard.next_step wizC5 0 (some [])
          ⟨[], some ⟨"w5", ⟨some ⟨0, [], [], false⟩⟩, 0⟩⟩).2.1 = [] ∧
    alGet (Wizard.get_step_data_all wizC5
        (Wizard.next_step wizC5 0 (some [])
          ⟨[], some ⟨"w5", ⟨some ⟨0, [], [], false⟩⟩, 0⟩⟩).2.1) 0 = none ∧
    (Wizard.next_step wizC5 0 (some [])
        ⟨[], some ⟨"w5", ⟨some ⟨0, [], [], false⟩⟩, 0⟩⟩).1 = true := by decide

/-- Witness for C5: with truthy data at step 0 of the two-step wizard,
`next` records the data under key 0, marks step 0 completed, moves to
step 1, runs step 1's handler and returns `true`. -/
theorem c5_witness :
    Wizard.next_step wizC5 0 (some [("name", 7)])
        ⟨[], some ⟨"w5", ⟨some ⟨0, [], [], false⟩⟩, 0⟩⟩ =
      (true, ⟨[], some ⟨"w5", ⟨some ⟨1, [(0, [("name", 7)])], [0], false⟩⟩, 0⟩⟩,
       [Ev.stepH "w5" 1 31]) :=
  (c5_next_step wizC5 0 (some [("name", 7)]) [] 0 ⟨0, [], [], false⟩).1 31 (by decide)

/-- C10:  Completing a wizard erases its record: `complete_wizard`
(called directly, or by `next_step` past the last step) sets the
`completed` flag and then `leave_scene` deletes the whole reserved
`"__scene"` key, so afterwards `is_completed` reads `false` (not
`true`) and `get_step_data` / `get_all_data` return empty mappings —
the flag and all recorded step data are unobservable; only the leave
handlers' run remains observable. -/
theorem c10_completion_erases (w : Wizard) (now : Nat) (s : Sess) :
    ((Wizard.complete_wizard w now s).1.scene = none) ∧
    (Wizard.is_completed w (Wizard.complete_wizard w now s).1 = false) ∧
    (Wizard.get_step_data_all w (Wizard.complete_wizard w now s).1 = []) ∧
    (∀ i, Wizard.get_step_data_at w (Wizard.complete_wizard w now s).1 i = []) ∧
    ((Wizard.complete_wizard w now s).2 = w.leave_handlers.map (Ev.leaveH w.scene_id)) ∧
    (∀ data u t0 ws, s = ⟨u, some ⟨w.scene_id, ⟨some ws⟩, t0⟩⟩ →
      w.steps.length ≤ ws.current_step + 1 →
      (Wizard.next_step w now data s).1 = false ∧
      (Wizard.next_step w now data s).2.1.scene = none ∧
      Wizard.is_completed w (Wizard.next_step w now data s).2.1 = false) := by
  refine ⟨rfl, rfl, rfl, fun i => rfl, rfl, ?_⟩
  intro data u t0 ws hs hlen
  subst hs
  have hge : ¬ ws.current_step + 1 < w.steps.length := by omega
  refine ⟨?_, ?_, ?_⟩ <;>
    simp [Wizard.next_step, Wizard.get_wizard_state, wget_state, wset_state,
      Wizard.complete_wizard, Wizard.leave_scene, Wizard.is_completed,
      nextWs_current_step, hge]

/-- Witness for C10: after completing the two-step wizard from step 1
(directly or via `next` past the last step), the scene record is gone
and the completed flag and step data are unobservable. -/
theorem c10_witness :
    (Wizard.complete_wizard wizC5 0
        ⟨[], some ⟨"w5", ⟨some ⟨1, [(0, [("name", 7)])], [0], false⟩⟩, 0⟩⟩).1.scene = none ∧
    Wizard.is_completed wizC5 (Wizard.complete_wizard wizC5 0
        ⟨[], some ⟨"w5", ⟨some ⟨1, [(0, [("name", 7)])], [0], false⟩⟩, 0⟩⟩).1 = false ∧
    (Wizard.next_step wizC5 0 none
        ⟨[], some ⟨"w5", ⟨some ⟨1, [(0, [("name", 7)])], [0], false⟩⟩, 0⟩⟩).1 = false := by
  have h := c10_completion_erases wizC5 0
      ⟨[], some ⟨"w5", ⟨some ⟨1, [(0, [("name", 7)])], [0], false⟩⟩, 0⟩⟩
  exact ⟨h.1, h.2.1,
    (h.2.2.2.2.2 none [] 0 ⟨1, [(0, [("name", 7)])], [0], false⟩ rfl (by decide)).1⟩

theorem storeGet_storeSet_self (st : Store) (k : String) (v : Sess) :
    storeGet (storeSet st k v) k = v := by
  simp [storeGet, storeSet, alGet_alSet_self]

/-- C6:  With the session middleware installed (sharing the bot's
`session_manager` store, the repository's standard configuration), the
session mapping for the conversation key is the one loaded at the start
of the update, and once processing ends — normally or through the
exception path of `handle_update` — the store holds the final in-memory
mapping, including every mutation the handlers made before a raise.
Consequently a value written under any key during one update is visible
in the session attached at the start of the next update for the same
conversation. -/
theorem c6_session_roundtrip (hs : List UHandler) (store : Store) (chat_id : String)
    (hk : chat_id ≠ "") :
    ((handle_update hs store chat_id).2.1 = storeGet store chat_id) ∧
    (storeGet (handle_update hs store chat_id).1 chat_id
      = (runHandlers hs (storeGet store chat_id)).1) ∧
    (∀ hs2 k v,
      alGet (runHandlers hs (storeGet store chat_id)).1.user k = some v →
      alGet (handle_update hs2 (handle_update hs store chat_id).1 chat_id).2.1.user k
        = some v) := by
  have hkey : session_key chat_id = chat_id := by simp [session_key, hk]
  refine ⟨?_, ?_, ?_⟩
  · simp [handle_update, hkey]
  · simp [handle_update, hkey, hk, storeGet_storeSet_self]
  · intro hs2 k v hv
    have h2 : (handle_update hs2 (handle_update hs store chat_id).1 chat_id).2.1
        = storeGet (handle_update hs store chat_id).1 chat_id := by
      simp [handle_update, hkey]
    have h3 : storeGet (handle_update hs store chat_id).1 chat_id
        = (runHandlers hs (storeGet store chat_id)).1 := by
      simp [handle_update, hkey, hk, storeGet_storeSet_self]
    rw [h2, h3]
    exact hv

/-- A handler that writes `session["x"] = 7` and then raises. -/
def raisingHandler : UHandler := fun s => (⟨alSet s.user "x" 7, s.scene⟩, true)

/-- Witness for C6: a handler writes a key and raises; the write-back
still happens, and the next update for the same conversation sees the
value in its freshly loaded session. -/
theorem c6_witness :
    (handle_update [raisingHandler] [] "c").2.2.2 = true ∧
    alGet (handle_update [] (handle_update [raisingHandler] [] "c").1 "c").2.1.user "x"
      = some 7 := by
  have h := c6_session_roundtrip [raisingHandler] [] "c" (by decide)
  exact ⟨by decide, h.2.2 [] "x" 7 (by decide)⟩

theorem words_nil : words [] = [] := by
  rw [words]

theorem words_cons_ws (c : Char) (cs : PyStr) (h : isWs c = true) :
    words (c :: cs) = words cs := by
  rw [words]
  simp [h]

theorem words_cons_not_ws (c : Char) (cs : PyStr) (h : isWs c = false) :
    words (c :: cs) =
      (c :: cs.takeWhile (fun d => !isWs d)) :: words (cs.dropWhile (fun d => !isWs d)) := by
  rw [words]
  simp [h]

theorem takeWhile_notWs_append (w : PyStr) (c : Char) (r : PyStr)
    (hw : ∀ d ∈ w, isWs d = false) (hc : isWs c = true) :
    (w ++ c :: r).takeWhile (fun d => !isWs d) = w := by
  induction w with
  | nil => simp [List.takeWhile_cons, hc]
  | cons a w2 ih =>
    have ha : isWs a = false := hw a (by simp)
    simp only [List.cons_append, List.takeWhile_cons, ha]
    simp [ih (fun d hd => hw d (by simp [hd]))]

theorem dropWhile_notWs_append (w : PyStr) (c : Char) (r : PyStr)
    (hw : ∀ d ∈ w, isWs d = false) (hc : isWs c = true) :
    (w ++ c :: r).dropWhile (fun d => !isWs d) = c :: r := by
  induction w with
  | nil => simp [List.dropWhile_cons, hc]
  | cons a w2 ih =>
    have ha : isWs a = false := hw a (by simp)
    simp only [List.cons_append, List.dropWhile_cons, ha]
    simp [ih (fun d hd => hw d (by simp [hd]))]

theorem words_token_append (w : PyStr) (c : Char) (r : PyStr)
    (hw0 : w ≠ []) (hw : ∀ d ∈ w, isWs d = false) (hc : isWs c = true) :
    words (w ++ c :: r) = w :: words r := by
  cases w with
  | nil => exact absurd rfl hw0
  | cons a w2 =>
    have ha : isWs a = false := hw a (by simp)
    rw [List.cons_append, words_cons_not_ws a _ ha,
      takeWhile_notWs_append w2 c r (fun d hd => hw d (by simp [hd])) hc,
      dropWhile_notWs_append w2 c r (fun d hd => hw d (by simp [hd])) hc,
      words_cons_ws c r hc]

/-- C8:  For every registered command name, a message text of the
shape `/<token> <args>` whose first whitespace-delimited token after
the slash equals the name case-insensitively is routed to the command's
handler; on that message `get_command()` returns the lowercased token
(equal to the lowercased name) and `get_command_args()` returns the
remaining whitespace-delimited tokens; and a command text whose first
token matches no registered name does not invoke the handler. -/
theorem c8_command_routing (cmds : List PyStr) (name w : PyStr) (r : PyStr)
    (hmem : name ∈ cmds) (hw0 : w ≠ []) (hw : ∀ d ∈ w, isWs d = false)
    (hlow : pyLower w = pyLower name) :
    (commandFires cmds (some ('/' :: (w ++ ' ' :: r))) = some true) ∧
    (get_command (some ('/' :: (w ++ ' ' :: r))) = some (pyLower w)) ∧
    (get_command_args (some ('/' :: (w ++ ' ' :: r))) = words r) ∧
    (∀ t tok toks, words t = tok :: toks →
      pyLower tok ∉ cmds.map pyLower →
      commandFires cmds (some ('/' :: t)) = some false) := by
  have hsp : isWs ' ' = true := by decide
  have hwords : words (w ++ ' ' :: r) = w :: words r := words_token_append w ' ' r hw0 hw hsp
  have hslashW : ∀ d ∈ ('/' :: w), isWs d = false := by
    intro d hd
    rcases List.mem_cons.mp hd with h | h
    · subst h
      decide
    · exact hw d h
  have hfull : words (('/' :: w) ++ ' ' :: r) = ('/' :: w) :: words r :=
    words_token_append ('/' :: w) ' ' r (by simp) hslashW hsp
  have hmem2 : pyLower w ∈ cmds.map pyLower := by
    rw [hlow]
    exact List.mem_map_of_mem pyLower hmem
  refine ⟨?_, ?_, ?_, ?_⟩
  · simp [commandFires, startsWithSlash, hwords, hmem2]
  · simp [get_command, startsWithSlash, hwords]
  · simp only [get_command_args]
    rw [if_neg (show ¬('/' :: (w ++ ' ' :: r) = []) by simp),
      if_pos (show startsWithSlash ('/' :: (w ++ ' ' :: r)) = true from rfl),
      show words ('/' :: (w ++ ' ' :: r)) = ('/' :: w) :: words r from hfull]
    simp
  · intro t tok toks hwt hnot
    simp [commandFires, startsWithSlash, hwt, hnot]

/-- Witness for C8: with command name `hi` registered, the message
`/Hi a` fires the handler, `get_command` yields `hi`, and the args are
`[a]`; the message `/z` does not fire. -/
theorem c8_witness :
    commandFires [['h', 'i']] (some ('/' :: (['H', 'i'] ++ ' ' :: ['a']))) = some true ∧
    get_command (some ('/' :: (['H', 'i'] ++ ' ' :: ['a']))) = some ['h', 'i'] ∧
    get_command_args (some ('/' :: (['H', 'i'] ++ ' ' :: ['a']))) = [['a']] ∧
    commandFires [['h', 'i']] (some ['/', 'z']) = some false := by
  have hz : words ['z'] = [['z']] := by
    rw [words_cons_not_ws 'z' [] (by decide)]
    simp [words_nil]
  have ha : words ['a'] = [['a']] := by
    rw [words_cons_not_ws 'a' [] (by decide)]
    simp [words_nil]
  have h := c8_command_routing [['h', 'i']] ['h', 'i'] ['H', 'i'] ['a']
      (by decide) (by decide) (by decide) (by decide)
  exact ⟨h.1, h.2.1.trans (by decide), (h.2.2.1).trans ha,
    h.2.2.2 ['z'] ['z'] [] hz (by decide)⟩

/-- A context carrying a message with no text (e.g. an image without a
caption): the update type is `"message"`, the parsed `Message` has no
text payload. -/
def ctxNoText : CCtx := ⟨"message", some ⟨none⟩⟩

/-- C9 (counterexample):  The claim says a Context whose message
has empty or absent text does not trigger an `on("text")` handler.  On
`ctxNoText` (message present, `text = None`) the handler fires anyway:
the source gates `"text"` on `hasattr(ctx.message, "text")`, which is
always true of the parsed `Message` dataclass, so no constraint on the
text itself remains. -/
theorem c9_counterexample :
    ctxNoText.message = some ⟨none⟩ ∧ mountFires ["text"] ctxNoText = true := by decide

/-- C9 (amended):  `on` with type `"message"` runs the handler for
any Context carrying a message payload; `on` with type `"text"` also
runs it for any Context carrying a message payload, regardless of
whether the message text is present, empty or absent (the attribute
probe is vacuous for parsed messages); a Context with no message
payload triggers neither, unless its update-type tag is itself
listed. -/
theorem c9_on_matching (types : List String) (ctx : CCtx) :
    (ctx.message.isSome = true → "message" ∈ types → mountFires types ctx = true) ∧
    (ctx.message.isSome = true → "text" ∈ types → mountFires types ctx = true) ∧
    (ctx.message = none → ctx.update_type ∉ types → mountFires types ctx = false) := by
  unfold mountFires
  refine ⟨?_, ?_, ?_⟩
  · intro hm ht
    by_cases hu : ctx.update_type ∈ types <;> simp [hu, hm, ht]
  · intro hm ht
    by_cases hu : ctx.update_type ∈ types <;>
      by_cases hmsg : "message" ∈ types <;> simp [hu, hm, ht, hmsg]
  · intro hm hu
    simp [hu, hm]

/-- Witness for C9: a message context triggers `on("message")` even
though its update-type tag is not listed, and a message context with
absent text triggers `on("text")`. -/
theorem c9_witness :
    mountFires ["message"] ⟨"callback_query", some ⟨some ['h']⟩⟩ = true ∧
    mountFires ["text"] ⟨"message", some ⟨none⟩⟩ = true :=
  ⟨(c9_on_matching ["message"] ⟨"callback_query", some ⟨some ['h']⟩⟩).1 rfl (by decide),
   (c9_on_matching ["text"] ⟨"message", some ⟨none⟩⟩).2.1 rfl (by decide)⟩
